import Mathlib

/-!
Shallow embedding of the query-understanding and response-synthesis core of
the agricultural Q&A system (`query_processor.py`, `response_generator.py`).

Modelling conventions:
* Python strings are Lean `String`s; all vocabularies and inputs are ASCII,
  so `Char.toLower`/`Char.toUpper` coincide with Python's case mapping.
* Python dicts that are used as string-keyed mappings with unique keys
  (entity mappings, parameter mappings, records, `data_results`) are
  association lists `List (String × _)` queried with `List.lookup`,
  preserving insertion order (Python dicts preserve insertion order).
* Entity and record values are strings or integers (`EVal`); the numeric
  record fields of the §6 schema are modelled as integers.
* `confidence` is modelled as a rational number; the Python floats involved
  (`0.5`, `score / 3.0`, `1.0`) are denoted exactly.
-/

/-- A value stored in an entity mapping, parameter mapping or record:
the pipeline only ever stores strings and integers. -/
inductive EVal where
  | s (v : String)
  | n (v : Int)
deriving DecidableEq

/-- Python `str.lower()` (ASCII). -/
def lowerStr (s : String) : String := ⟨s.data.map Char.toLower⟩

/-- Bool test that `p` is a prefix of `l` (character lists). -/
def isPfx : List Char → List Char → Bool
  | [], _ => true
  | _ :: _, [] => false
  | a :: as, b :: bs => a == b && isPfx as bs

/-- Bool test that `needle` occurs contiguously in `hay`:
Python `needle in hay` on strings, over the character lists. -/
def hasSub (needle : List Char) : List Char → Bool
  | [] => needle.isEmpty
  | c :: rest => isPfx needle (c :: rest) || hasSub needle rest

/-- Python `needle in hay` on strings. -/
def containsSub (hay needle : String) : Bool := hasSub needle.data hay.data

/-- Helper for `titleStr`: the Bool records whether the previous character
was alphabetic. -/
def titleChars : Bool → List Char → List Char
  | _, [] => []
  | prevAlpha, c :: rest =>
    (if prevAlpha then c.toLower else c.toUpper) :: titleChars c.isAlpha rest

/-- Python `str.title()` (ASCII): the first character of every alphabetic
run is upper-cased, the following ones lower-cased. -/
def titleStr (s : String) : String := ⟨titleChars false s.data⟩

/-! Section: query_processor.py -/

/-- `self.intent_keywords`, in declaration order. -/
def intent_keywords : List (String × List String) :=
  [("crop_production", ["production", "yield", "harvest", "grow", "cultivate", "produce"]),
   ("crop_price", ["price", "msp", "cost", "rate", "value", "minimum support price"]),
   ("crop_area", ["area", "hectare", "land", "acreage", "cultivation area"]),
   ("weather", ["weather", "rainfall", "temperature", "rain", "climate", "humidity", "wind"]),
   ("comparison", ["compare", "difference", "versus", "vs", "better", "higher", "lower"]),
   ("statistics", ["total", "average", "maximum", "minimum", "sum", "mean"])]

/-- `self.crop_names`, in declaration order. -/
def crop_names : List String :=
  ["rice", "wheat", "cotton", "sugarcane", "maize", "corn", "barley",
   "jowar", "bajra", "ragi", "pulses", "soybean", "groundnut", "mustard",
   "sunflower", "potato", "onion", "tomato", "tea", "coffee", "rubber"]

/-- `self.state_names`, in declaration order. -/
def state_names : List String :=
  ["punjab", "haryana", "uttar pradesh", "up", "madhya pradesh", "mp",
   "rajasthan", "gujarat", "maharashtra", "karnataka", "tamil nadu",
   "andhra pradesh", "telangana", "west bengal", "bihar", "odisha",
   "assam", "kerala", "jharkhand", "chhattisgarh"]

/-- `self.seasons`. -/
def seasons : List String := ["kharif", "rabi", "zaid", "summer", "winter", "monsoon"]

/-- `sum(1 for keyword in keywords if keyword in query)`. -/
def intentScore (query : String) (keywords : List String) : Nat :=
  (keywords.filter (fun kw => containsSub query kw)).length

/-- The `intent_scores` dict of `_classify_intent` over an arbitrary
keyword table: categories with a positive score, in declaration order. -/
def intentScoresAux (table : List (String × List String)) (query : String) :
    List (String × Nat) :=
  match table with
  | [] => []
  | p :: rest =>
    if 0 < intentScore query p.2
    then (p.1, intentScore query p.2) :: intentScoresAux rest query
    else intentScoresAux rest query

/-- The `intent_scores` dict of `_classify_intent`. -/
def intentScores (query : String) : List (String × Nat) :=
  intentScoresAux intent_keywords query

/-- `max(intent_scores, key=intent_scores.get)`: Python's `max` keeps the
first maximal element in iteration order, so a later element replaces the
current best only when strictly greater. -/
def maxFirst (x : String × Nat) : List (String × Nat) → String × Nat
  | [] => x
  | y :: ys => maxFirst (if x.2 < y.2 then y else x) ys

/-- `_classify_intent`: intent tag together with the confidence. -/
def classifyIntent (query : String) : String × ℚ :=
  match intentScores query with
  | [] => ("general", 1/2)
  | x :: xs =>
    let best := maxFirst x xs
    (best.1, min ((best.2 : ℚ) / 3) 1)

/-- One character of `\w` (ASCII). -/
def isWordChar (c : Char) : Bool := c.isAlphanum || c == '_'

/-- The `\b` test of the year regex before position `i`. -/
def boundaryBefore (l : List Char) (i : Nat) : Bool :=
  match i with
  | 0 => true
  | j + 1 =>
    match l.get? j with
    | some p => !isWordChar p
    | none => true

/-- The `\b` test of the year regex at position `i` (after the digits). -/
def boundaryAfter (l : List Char) (i : Nat) : Bool :=
  match l.get? i with
  | some c => !isWordChar c
  | none => true

/-- Numeric value of an ASCII digit. -/
def digitVal (c : Char) : Nat := c.toNat - 48

/-- Attempted match of `\b(19|20)\d{2}\b` starting at position `i`. -/
def yearAt (l : List Char) (i : Nat) : Option Nat :=
  match l.get? i, l.get? (i+1), l.get? (i+2), l.get? (i+3) with
  | some c0, some c1, some c2, some c3 =>
    if boundaryBefore l i
        && ((c0 == '1' && c1 == '9') || (c0 == '2' && c1 == '0'))
        && c2.isDigit && c3.isDigit
        && boundaryAfter l (i+4)
    then some (1000 * digitVal c0 + 100 * digitVal c1 + 10 * digitVal c2 + digitVal c3)
    else none
  | _, _, _, _ => none

/-- `re.search(self.year_pattern, query)` followed by `int(...)`:
the match at the leftmost position where the pattern matches. -/
def findYear (l : List Char) : Option Nat :=
  ((List.range l.length).filterMap (yearAt l)).head?

/-- The normalization applied to an extracted state name. -/
def normalizeState (state : String) : String :=
  if state = "up" then "Uttar Pradesh"
  else if state = "mp" then "Madhya Pradesh"
  else titleStr state

/-- The first four extraction steps of `_extract_entities`:
crop, state, year and season, each recorded at most once. -/
def entityScan (query : String) : List (String × EVal) :=
  (match crop_names.find? (fun crop => containsSub query crop) with
   | some crop => [("crop", EVal.s (titleStr crop))]
   | none => []) ++
  (match state_names.find? (fun state => containsSub query state) with
   | some state => [("state", EVal.s (normalizeState state))]
   | none => []) ++
  (match findYear query.data with
   | some y => [("year", EVal.n y)]
   | none => []) ++
  (match seasons.find? (fun season => containsSub query season) with
   | some season => [("season", EVal.s (titleStr season))]
   | none => [])

/-- The final step of `_extract_entities`: alias `location := state` when no
location entity exists and a state entity does. -/
def withLocation (entities : List (String × EVal)) : List (String × EVal) :=
  if (entities.lookup "location").isNone then
    match entities.lookup "state" with
    | some v => entities ++ [("location", v)]
    | none => entities
  else entities

/-- `_extract_entities`. -/
def extractEntities (query : String) : List (String × EVal) :=
  withLocation (entityScan query)

/-- Helper for `dedupFirst`: keep an element only when it was not seen yet,
as `dict.fromkeys` does while inserting keys. -/
def dedupFirstAux (seen : List String) : List String → List String
  | [] => []
  | x :: xs =>
    if seen.contains x then dedupFirstAux seen xs
    else x :: dedupFirstAux (x :: seen) xs

/-- `list(dict.fromkeys(sources))`: deduplicate keeping first occurrences. -/
def dedupFirst (l : List String) : List String := dedupFirstAux [] l

/-- `_determine_data_sources`. -/
def determineDataSources (intent_type : String) (entities : List (String × EVal)) :
    List String :=
  let sources :=
    (if intent_type == "weather" || (entities.lookup "season").isSome
     then ["weather"] else []) ++
    (if intent_type == "crop_production" || intent_type == "crop_price"
        || intent_type == "crop_area" || (entities.lookup "crop").isSome
     then ["agriculture"] else []) ++
    (if intent_type == "comparison" then ["agriculture", "weather"] else [])
  dedupFirst (if sources.isEmpty then ["agriculture", "weather"] else sources)

/-- The `QueryIntent` dataclass. -/
structure QueryIntent where
  intent_type : String
  entities : List (String × EVal)
  data_sources : List String
  confidence : ℚ
deriving DecidableEq

/-- `process_query`. -/
def processQuery (query : String) : QueryIntent :=
  let query_lower := lowerStr query
  let classified := classifyIntent query_lower
  let entities := extractEntities query_lower
  { intent_type := classified.1
    entities := entities
    data_sources := determineDataSources classified.1 entities
    confidence := classified.2 }

/-- `[(key, o.val)]` when the optional entity is present, else `[]`. -/
def optEntry (key : String) (o : Option EVal) : List (String × EVal) :=
  match o with
  | some v => [(key, v)]
  | none => []

/-- The agriculture branch of `build_query_params`. -/
def agricultureParams (entities : List (String × EVal)) : List (String × EVal) :=
  optEntry "crop" (entities.lookup "crop") ++
  optEntry "state" (entities.lookup "state") ++
  optEntry "year" (entities.lookup "year")

/-- The weather branch of `build_query_params`: `location` if present, else
`state` under the `location` key; then `season` if present. -/
def weatherParams (entities : List (String × EVal)) : List (String × EVal) :=
  (match entities.lookup "location" with
   | some v => [("location", v)]
   | none =>
     match entities.lookup "state" with
     | some v => [("location", v)]
     | none => []) ++
  optEntry "season" (entities.lookup "season")

/-- Per-source parameter construction of `build_query_params`. -/
def sourceParams (source : String) (entities : List (String × EVal)) :
    List (String × EVal) :=
  if source == "agriculture" then agricultureParams entities
  else if source == "weather" then weatherParams entities
  else []

/-- `build_query_params`. -/
def buildQueryParams (qi : QueryIntent) : List (String × List (String × EVal)) :=
  qi.data_sources.map (fun source => (source, sourceParams source qi.entities))

/-! Section: response_generator.py -/

/-- One record of a source result: a field→value mapping. -/
abbrev Record := List (String × EVal)

/-- The per-source result object consumed by the synthesizer (§6): a
`results` sequence, a `citation` mapping and optionally an `error` string;
each field may be absent.  The `count` field is never read by the
synthesizer and is omitted. -/
structure SourceData where
  results : Option (List Record)
  citation : Option (List (String × String))
  error : Option String
deriving DecidableEq

/-- `result.get(key, default)` rendered into an f-string with `str()`. -/
def getStr (r : Record) (key : String) (dflt : String) : String :=
  match r.lookup key with
  | some (EVal.s v) => v
  | some (EVal.n v) => toString v
  | none => dflt

/-- `result.get(key, 0)` for the numeric fields of the §6 schema. -/
def getNum (r : Record) (key : String) : Int :=
  match r.lookup key with
  | some (EVal.n v) => v
  | _ => 0

/-- Comma insertion of `{:,}` on a reversed digit list: a comma after
every third digit counted from the right. -/
def groupRev : List Char → List Char
  | a :: b :: c :: d :: rest => a :: b :: c :: ',' :: groupRev (d :: rest)
  | l => l

/-- Python `f"{n:,.0f}"` for an integer value: thousands separators,
no decimals. -/
def commaFmt (n : Int) : String :=
  (if n < 0 then "-" else "") ++ ⟨(groupRev (Nat.toDigits 10 n.natAbs).reverse).reverse⟩

/-- Python `f"{n:.1f}"` for an integer value. -/
def fmt1 (n : Int) : String := toString n ++ ".0"

/-- `"\n\n".join(answer_parts)`. -/
def joinParts : List String → String
  | [] => ""
  | [a] => a
  | a :: b :: rest => a ++ "\n\n" ++ joinParts (b :: rest)

/-- The guard `name in data_results and data_results[name].get("results")`:
the results list when the key is present and the list present and
non-empty (Python truthiness), otherwise `none`. -/
def truthyResults (dr : List (String × SourceData)) (name : String) :
    Option (List Record) :=
  match dr.lookup name with
  | some sd =>
    match sd.results with
    | some (r :: rs) => some (r :: rs)
    | _ => none
  | none => none

/-- The agriculture attribution line. -/
def agSrcLine : String := "*[Source: Ministry of Agriculture & Farmers Welfare]*"

/-- The weather attribution line. -/
def imdSrcLine : String := "*[Source: India Meteorological Department]*"

/-- One production block of `_generate_production_response`. -/
def productionBlock (r : Record) : String :=
  "**" ++ getStr r "crop" "Unknown crop" ++ " in " ++ getStr r "state" "Unknown state" ++
  " (" ++ getStr r "year" "Unknown year" ++ "):**\n" ++
  "- Production: " ++ commaFmt (getNum r "production_tonnes") ++ " tonnes\n" ++
  "- Cultivation Area: " ++ commaFmt (getNum r "area_hectares") ++ " hectares\n" ++
  "- Yield: " ++ commaFmt (getNum r "yield_kg_per_hectare") ++ " kg/hectare"

/-- One related-weather line of `_generate_production_response`. -/
def productionWeatherLine (w : Record) : String :=
  "- " ++ getStr w "location" "Unknown" ++ ": " ++ fmt1 (getNum w "rainfall_mm") ++
  "mm rainfall, " ++ fmt1 (getNum w "temperature_celsius") ++ "°C temperature"

/-- The `answer_parts` list of `_generate_production_response`.  Note that
the `len(results) == 0` branch of the source is transcribed although it is
unreachable: the surrounding guard already requires a non-empty list. -/
def generateProductionParts (dr : List (String × SourceData)) : List String :=
  (match truthyResults dr "agriculture" with
   | some results =>
     if results.length = 0 then ["No production data found for the specified criteria."]
     else (results.map (fun r => [productionBlock r, agSrcLine])).flatten
   | none => []) ++
  (match truthyResults dr "weather" with
   | some weather_results =>
     ["\n**Related Weather Information:**"] ++
     (weather_results.take 2).map productionWeatherLine ++ [imdSrcLine]
   | none => [])

/-- `_generate_production_response`. -/
def generateProductionResponse (dr : List (String × SourceData)) : String :=
  match generateProductionParts dr with
  | [] => "No data available for your query."
  | parts => joinParts parts

/-- One comparison line of `_generate_comparison_response`. -/
def comparisonLine (r : Record) : String :=
  "- **" ++ getStr r "crop" "Unknown" ++ " (" ++ getStr r "state" "Unknown" ++ "):** " ++
  commaFmt (getNum r "production_tonnes") ++ " tonnes production, " ++
  commaFmt (getNum r "yield_kg_per_hectare") ++ " kg/ha yield"

/-- The `answer_parts` list of `_generate_comparison_response`. -/
def generateComparisonParts (dr : List (String × SourceData)) : List String :=
  match truthyResults dr "agriculture" with
  | some results =>
    if 2 ≤ results.length then
      ["**Comparison:**\n"] ++ results.map comparisonLine ++ ["\n" ++ agSrcLine]
    else ["Insufficient data for comparison."]
  | none => []

/-- `_generate_comparison_response`. -/
def generateComparisonResponse (dr : List (String × SourceData)) : String :=
  match generateComparisonParts dr with
  | [] => "No comparison data available."
  | parts => joinParts parts

/-- The normalization of one citation record in `_collect_citations`. -/
def normalizeCitation (c : List (String × String)) : List (String × String) :=
  [("source", (c.lookup "source_name").getD "Unknown"),
   ("url", (c.lookup "source_url").getD ""),
   ("last_updated", (c.lookup "last_updated").getD "Unknown")]

/-- `_collect_citations`: one normalized citation per source whose result
carries a `citation` field, in iteration order. -/
def collectCitations : List (String × SourceData) → List (List (String × String))
  | [] => []
  | (_, sd) :: rest =>
    match sd.citation with
    | some c => normalizeCitation c :: collectCitations rest
    | none => collectCitations rest

/-! Section: Lemmas about the basic string functions -/

theorem isPfx_iff (n : List Char) : ∀ h : List Char, isPfx n h = true ↔ n <+: h := by
  induction n with
  | nil => intro h; simp [isPfx]
  | cons a as ih =>
    intro h
    cases h with
    | nil => simp [isPfx]
    | cons b bs => simp [isPfx, ih, List.cons_prefix_cons, Bool.and_eq_true, beq_iff_eq]

theorem hasSub_iff (n : List Char) : ∀ h : List Char, hasSub n h = true ↔ n <:+: h := by
  intro h
  induction h with
  | nil => simp [hasSub, List.infix_nil]
  | cons c rest ih => simp [hasSub, isPfx_iff, ih, List.infix_cons_iff, Bool.or_eq_true]

theorem containsSub_trans {hay mid needle : String}
    (h1 : containsSub hay mid = true) (h2 : containsSub mid needle = true) :
    containsSub hay needle = true := by
  simp only [containsSub, hasSub_iff] at h1 h2 ⊢
  exact h2.trans h1

/-! Section: Claim C1 -/

/-- A `data_results` mapping whose agriculture entry is present with an
empty results list and no other data. -/
def agEmptyResults : List (String × SourceData) :=
  [("agriculture", { results := some [], citation := none, error := none })]

/-- C1: with an agriculture entry present whose results list is empty and
no other data, the production response is "No data available for your
query." rather than the claimed "No production data found for the
specified criteria.": `.get("results")` on an empty list is falsy, so the
source's `len(results) == 0` branch holding that message can never run. -/
theorem C1_production_empty_results_eval :
    generateProductionResponse agEmptyResults = "No data available for your query." ∧
    generateProductionResponse agEmptyResults ≠
      "No production data found for the specified criteria." :=
  ⟨rfl, by decide⟩

/-! Section: Claim C2 -/

/-- A source result carrying both a `citation` field and an `error` field. -/
def errorWithCitation : List (String × SourceData) :=
  [("agriculture",
    { results := some []
      citation := some [("source_name", "Ministry of Agriculture & Farmers Welfare"),
                        ("source_url", "https://data.gov.in"),
                        ("last_updated", "Unknown")]
      error := some "connection failure" })]

/-- C2 (counterexample): a source whose result carries both a `citation`
field and an `error` field still contributes a citation, so the citations
list does not have exactly one entry per source that carries a citation
and lacks an error. -/
theorem C2_error_source_counterexample :
    (collectCitations errorWithCitation).length = 1 ∧
    (errorWithCitation.filter
      (fun p => p.2.citation.isSome && p.2.error.isNone)).length = 0 :=
  ⟨rfl, rfl⟩

/-- C2 (amended): the citations list has exactly one entry per source that
carries a `citation` field — regardless of any `error` field — in
source-iteration order, each normalized from that source's citation. -/
theorem C2_citations_per_citation_field (dr : List (String × SourceData)) :
    collectCitations dr =
      (dr.filter (fun p => p.2.citation.isSome)).map
        (fun p => normalizeCitation (p.2.citation.getD [])) ∧
    (collectCitations dr).length = dr.countP (fun p => p.2.citation.isSome) := by
  induction dr with
  | nil => exact ⟨rfl, rfl⟩
  | cons p rest ih =>
    obtain ⟨name, sd⟩ := p
    cases hc : sd.citation with
    | some c =>
      simp [collectCitations, hc, ih.1, ih.2, List.countP_cons,
        List.countP_eq_length_filter]
    | none =>
      simp [collectCitations, hc, ih.1, ih.2, List.countP_cons,
        List.countP_eq_length_filter]

/-! Section: Claim C5 -/

/-- C5: "rice production in punjab" is classified as `crop_production`,
its entities contain crop "Rice" and state "Punjab", and the only selected
data source is agriculture (weather absent: no season keyword). -/
theorem C5_rice_production_punjab :
    (processQuery "rice production in punjab").intent_type = "crop_production" ∧
    (processQuery "rice production in punjab").entities.lookup "crop" =
      some (EVal.s "Rice") ∧
    (processQuery "rice production in punjab").entities.lookup "state" =
      some (EVal.s "Punjab") ∧
    (processQuery "rice production in punjab").data_sources = ["agriculture"] := by
  refine ⟨by decide, by decide, by decide, by decide⟩

/-! Section: Claim C6 -/

/-- C6 (counterexample): an agriculture entry present with an empty results
list — zero records, hence "fewer than 2" — yields "No comparison data
available.", not the claimed "Insufficient data for comparison.". -/
theorem C6_empty_results_counterexample :
    generateComparisonResponse agEmptyResults = "No comparison data available." ∧
    generateComparisonResponse agEmptyResults ≠ "Insufficient data for comparison." :=
  ⟨rfl, by decide⟩

/-- C6 (amended): with at least two agriculture records the comparison
answer is the "Comparison" header followed by one line per record and the
attribution line; with exactly one record it is "Insufficient data for
comparison."; with an absent agriculture key, absent results field or an
empty results list it is "No comparison data available.". -/
theorem C6_comparison_branches (dr : List (String × SourceData)) :
    (dr.lookup "agriculture" = none →
      generateComparisonResponse dr = "No comparison data available.") ∧
    (∀ sd, dr.lookup "agriculture" = some sd → sd.results = none →
      generateComparisonResponse dr = "No comparison data available.") ∧
    (∀ sd, dr.lookup "agriculture" = some sd → sd.results = some [] →
      generateComparisonResponse dr = "No comparison data available.") ∧
    (∀ sd r, dr.lookup "agriculture" = some sd → sd.results = some [r] →
      generateComparisonResponse dr = "Insufficient data for comparison.") ∧
    (∀ sd rs, dr.lookup "agriculture" = some sd → sd.results = some rs →
      2 ≤ rs.length →
      generateComparisonParts dr =
        ["**Comparison:**\n"] ++ rs.map comparisonLine ++ ["\n" ++ agSrcLine] ∧
      ∃ t, generateComparisonResponse dr = "**Comparison:**\n" ++ t) := by
  refine ⟨?_, ?_, ?_, ?_, ?_⟩
  · intro h
    simp [generateComparisonResponse, generateComparisonParts, truthyResults, h]
  · intro sd h hr
    simp [generateComparisonResponse, generateComparisonParts, truthyResults, h, hr]
  · intro sd h hr
    simp [generateComparisonResponse, generateComparisonParts, truthyResults, h, hr]
  · intro sd r h hr
    simp [generateComparisonResponse, generateComparisonParts, truthyResults, h, hr,
      joinParts]
  · intro sd rs h hr h2
    match rs, h2 with
    | r1 :: r2 :: rs'', _ =>
      have hparts : generateComparisonParts dr =
          ["**Comparison:**\n"] ++ (r1 :: r2 :: rs'').map comparisonLine ++
            ["\n" ++ agSrcLine] := by
        simp [generateComparisonParts, truthyResults, h, hr]
      have hresp : generateComparisonResponse dr =
          joinParts ("**Comparison:**\n" :: comparisonLine r1 :: comparisonLine r2 ::
            (rs''.map comparisonLine ++ ["\n" ++ agSrcLine])) := by
        simp [generateComparisonResponse, generateComparisonParts, truthyResults, h, hr]
      refine ⟨hparts, "\n\n" ++ joinParts (comparisonLine r1 :: comparisonLine r2 ::
        (rs''.map comparisonLine ++ ["\n" ++ agSrcLine])), ?_⟩
      rw [hresp]
      simp only [joinParts]
      rw [String.append_assoc]

/-- C6 (witness): the amended branch behavior at one- and two-record
inputs. -/
def agOneRecord : List (String × SourceData) :=
  [("agriculture",
    { results := some [[("crop", EVal.s "Rice"), ("state", EVal.s "Punjab"),
        ("production_tonnes", EVal.n 12500000), ("yield_kg_per_hectare", EVal.n 4032)]]
      citation := none, error := none })]

/-- A two-record agriculture result for the comparison branch. -/
def agTwoRecords : List (String × SourceData) :=
  [("agriculture",
    { results := some
        [[("crop", EVal.s "Rice"), ("state", EVal.s "Punjab"),
          ("production_tonnes", EVal.n 12500000), ("yield_kg_per_hectare", EVal.n 4032)],
         [("crop", EVal.s "Wheat"), ("state", EVal.s "Punjab"),
          ("production_tonnes", EVal.n 18000000), ("yield_kg_per_hectare", EVal.n 5143)]]
      citation := none, error := none })]

/-- C6 (witness): the single-record input yields the insufficiency message
and the two-record input starts with the comparison header. -/
theorem C6_comparison_branches_witness :
    generateComparisonResponse agOneRecord = "Insufficient data for comparison." ∧
    (∃ t, generateComparisonResponse agTwoRecords = "**Comparison:**\n" ++ t) :=
  ⟨(C6_comparison_branches agOneRecord).2.2.2.1 _ _ rfl rfl,
   ((C6_comparison_branches agTwoRecords).2.2.2.2 _ _ rfl rfl (by decide)).2⟩

/-! Section: Lemmas about dedupFirst and entity lookups -/

theorem mem_dedupFirstAux :
    ∀ (l seen : List String) (a : String), a ∈ dedupFirstAux seen l → a ∈ l := by
  intro l
  induction l with
  | nil => intro seen a h; simp [dedupFirstAux] at h
  | cons x xs ih =>
    intro seen a h
    cases hc : seen.contains x with
    | true =>
      simp only [dedupFirstAux, hc, if_true] at h
      exact List.mem_cons_of_mem _ (ih _ _ h)
    | false =>
      simp only [dedupFirstAux, hc, Bool.false_eq_true, if_false, List.mem_cons] at h
      rcases h with rfl | h
      · exact List.mem_cons_self _ _
      · exact List.mem_cons_of_mem _ (ih _ _ h)

theorem not_mem_dedupFirstAux :
    ∀ (l seen : List String) (a : String), a ∈ seen → a ∉ dedupFirstAux seen l := by
  intro l
  induction l with
  | nil => intro seen a _ h; simp [dedupFirstAux] at h
  | cons x xs ih =>
    intro seen a ha h
    cases hc : seen.contains x with
    | true =>
      simp only [dedupFirstAux, hc, if_true] at h
      exact ih _ _ ha h
    | false =>
      simp only [dedupFirstAux, hc, Bool.false_eq_true, if_false, List.mem_cons] at h
      rcases h with rfl | h
      · rw [List.contains_eq_any_beq] at hc
        have : seen.any (a == ·) = true :=
          List.any_eq_true.mpr ⟨a, ha, by simp⟩
        rw [this] at hc
        cases hc
      · exact ih _ _ (List.mem_cons_of_mem _ ha) h

theorem nodup_dedupFirstAux :
    ∀ (l seen : List String), (dedupFirstAux seen l).Nodup := by
  intro l
  induction l with
  | nil => intro seen; simp [dedupFirstAux]
  | cons x xs ih =>
    intro seen
    cases hc : seen.contains x with
    | true => simpa only [dedupFirstAux, hc, if_true] using ih seen
    | false =>
      simp only [dedupFirstAux, hc, Bool.false_eq_true, if_false]
      exact List.nodup_cons.mpr
        ⟨not_mem_dedupFirstAux _ _ _ (List.mem_cons_self _ _), ih _⟩

theorem dedupFirst_nodup (l : List String) : (dedupFirst l).Nodup :=
  nodup_dedupFirstAux l []

theorem mem_dedupFirst {a : String} {l : List String} (h : a ∈ dedupFirst l) : a ∈ l :=
  mem_dedupFirstAux l [] a h

theorem determineDataSources_mem (it : String) (ents : List (String × EVal)) :
    ∀ s ∈ determineDataSources it ents, s = "agriculture" ∨ s = "weather" := by
  intro s hs
  simp only [determineDataSources] at hs
  have hs' := mem_dedupFirst hs
  split_ifs at hs' <;> simp_all <;> tauto

/-- A lookup other than `location` is unchanged by the location aliasing. -/
theorem withLocation_lookup_ne (l : List (String × EVal)) (k : String)
    (hk : (k == "location") = false) :
    (withLocation l).lookup k = l.lookup k := by
  unfold withLocation
  split
  · split
    · rw [List.lookup_append]
      cases hl : l.lookup k
      · simp [List.lookup_cons, hk]
      · simp
    · rfl
  · rfl

theorem mem_of_containsTrue {l : List String} {a : String}
    (h : l.contains a = true) : a ∈ l := by
  rw [List.contains_eq_any_beq] at h
  obtain ⟨b, hb, hba⟩ := List.any_eq_true.mp h
  rw [eq_of_beq hba]
  exact hb

theorem mem_dedupFirstAux_of_mem :
    ∀ (l seen : List String) (a : String), a ∈ l → a ∉ seen →
      a ∈ dedupFirstAux seen l := by
  intro l
  induction l with
  | nil => intro seen a h _; cases h
  | cons x xs ih =>
    intro seen a ha hns
    cases hc : seen.contains x with
    | true =>
      simp only [dedupFirstAux, hc, if_true]
      rcases List.mem_cons.mp ha with rfl | h
      · exact absurd (mem_of_containsTrue hc) hns
      · exact ih seen a h hns
    | false =>
      simp only [dedupFirstAux, hc, Bool.false_eq_true, if_false]
      rcases List.mem_cons.mp ha with rfl | h
      · exact List.mem_cons_self _ _
      · by_cases hax : a = x
        · rw [hax]; exact List.mem_cons_self _ _
        · refine List.mem_cons_of_mem _ (ih (x :: seen) a h ?_)
          intro hm
          rcases List.mem_cons.mp hm with h' | h'
          · exact hax h'
          · exact hns h'

theorem mem_dedupFirst_iff (l : List String) (a : String) :
    a ∈ dedupFirst l ↔ a ∈ l :=
  ⟨mem_dedupFirst, fun h => mem_dedupFirstAux_of_mem l [] a h (by intro hm; cases hm)⟩

/-- Generalized first-seen order invariant of the deduplication: with
`front` already consumed and recorded in `seen`, the output of the
remaining scan is sorted by index of first occurrence in the full list. -/
theorem dedupFirstAux_pairwise_indexOf :
    ∀ (l front seen : List String), (∀ a ∈ front, a ∈ seen) →
      (dedupFirstAux seen l).Pairwise
        (fun x y => (front ++ l).indexOf x < (front ++ l).indexOf y) := by
  intro l
  induction l with
  | nil => intro front seen _; exact List.Pairwise.nil
  | cons x xs ih =>
    intro front seen hfs
    cases hc : seen.contains x with
    | true =>
      simp only [dedupFirstAux, hc, if_true]
      have h1 : ∀ a ∈ front ++ [x], a ∈ seen := by
        intro a ha
        rcases List.mem_append.mp ha with h | h
        · exact hfs a h
        · rw [List.mem_singleton.mp h]; exact mem_of_containsTrue hc
      have hp := ih (front ++ [x]) seen h1
      rw [List.append_assoc, List.singleton_append] at hp
      exact hp
    | false =>
      simp only [dedupFirstAux, hc, Bool.false_eq_true, if_false]
      have hxseen : x ∉ seen := by
        intro hm
        rw [List.contains_eq_any_beq] at hc
        have hany : seen.any (x == ·) = true := List.any_eq_true.mpr ⟨x, hm, by simp⟩
        rw [hany] at hc
        cases hc
      have hxfront : x ∉ front := fun hm => hxseen (hfs x hm)
      refine List.pairwise_cons.mpr ⟨?_, ?_⟩
      · intro y hy
        have hynotin : y ∉ x :: seen := fun hm =>
          not_mem_dedupFirstAux xs (x :: seen) y hm hy
        have hyx : y ≠ x := fun he => hynotin (he ▸ List.mem_cons_self x seen)
        have hyseen : y ∉ seen := fun hm => hynotin (List.mem_cons_of_mem x hm)
        have hyfront : y ∉ front := fun hm => hyseen (hfs y hm)
        rw [List.indexOf_append_of_not_mem hxfront,
          List.indexOf_append_of_not_mem hyfront, List.indexOf_cons_self,
          List.indexOf_cons_ne _ (Ne.symm hyx)]
        omega
      · have h1 : ∀ a ∈ front ++ [x], a ∈ x :: seen := by
          intro a ha
          rcases List.mem_append.mp ha with h | h
          · exact List.mem_cons_of_mem x (hfs a h)
          · rw [List.mem_singleton.mp h]; exact List.mem_cons_self x seen
        have hp := ih (front ++ [x]) (x :: seen) h1
        rw [List.append_assoc, List.singleton_append] at hp
        exact hp

/-- First-seen order: the deduplicated list is sorted by the index of each
element's first occurrence in the input. -/
theorem dedupFirst_pairwise_indexOf (l : List String) :
    (dedupFirst l).Pairwise (fun x y => l.indexOf x < l.indexOf y) := by
  have hp := dedupFirstAux_pairwise_indexOf l [] [] (fun a ha => by cases ha)
  rw [List.nil_append] at hp
  exact hp

/-! Section: Claim C8 -/

/-- The `sources` list of `_determine_data_sources` before the final
deduplication: the selection sequence in append order, including the
default-to-both fallback. -/
def selectionSeq (intent_type : String) (entities : List (String × EVal)) :
    List String :=
  let sources :=
    (if intent_type == "weather" || (entities.lookup "season").isSome
     then ["weather"] else []) ++
    (if intent_type == "crop_production" || intent_type == "crop_price"
        || intent_type == "crop_area" || (entities.lookup "crop").isSome
     then ["agriculture"] else []) ++
    (if intent_type == "comparison" then ["agriculture", "weather"] else [])
  if sources.isEmpty then ["agriculture", "weather"] else sources

/-- The returned sources are exactly the deduplication of the selection
sequence. -/
theorem determineDataSources_eq_dedup (it : String) (ents : List (String × EVal)) :
    determineDataSources it ents = dedupFirst (selectionSeq it ents) := rfl

/-- C8: for every query text the selected data sources are drawn from
`{agriculture, weather}`, each appears at most once, exactly the selected
sources appear, and they are listed in first-seen order of selection: the
list is sorted by the index of each source's first occurrence in the
selection sequence. -/
theorem C8_sources_invariant (q : String) :
    (∀ s ∈ (processQuery q).data_sources, s = "agriculture" ∨ s = "weather") ∧
    (processQuery q).data_sources.Nodup ∧
    (∀ s, s ∈ (processQuery q).data_sources ↔
      s ∈ selectionSeq (processQuery q).intent_type (processQuery q).entities) ∧
    (processQuery q).data_sources.Pairwise (fun x y =>
      (selectionSeq (processQuery q).intent_type (processQuery q).entities).indexOf x <
        (selectionSeq (processQuery q).intent_type (processQuery q).entities).indexOf y)
    := by
  have hds : (processQuery q).data_sources =
      dedupFirst (selectionSeq (processQuery q).intent_type (processQuery q).entities) :=
    rfl
  refine ⟨?_, ?_, ?_, ?_⟩
  · intro s hs
    exact determineDataSources_mem _ _ s hs
  · rw [hds]; exact dedupFirst_nodup _
  · intro s; rw [hds]; exact mem_dedupFirst_iff _ s
  · rw [hds]; exact dedupFirst_pairwise_indexOf _

/-- C8 (witness): the invariant applied to a concrete query. -/
theorem C8_sources_invariant_witness :
    "agriculture" ∈ (processQuery "rice production in punjab").data_sources ∧
    ("agriculture" = "agriculture" ∨ "agriculture" = "weather") :=
  ⟨by decide, (C8_sources_invariant "rice production in punjab").1 "agriculture" (by decide)⟩

/-! Section: Claim C9 -/

/-- C9: every query whose lower-cased text contains "price" gets the crop
entity "Rice": "rice" is a substring of "price" and is the first entry of
the crop vocabulary scan. -/
theorem C9_price_yields_rice (q : String)
    (h : containsSub (lowerStr q) "price" = true) :
    (processQuery q).entities.lookup "crop" = some (EVal.s "Rice") := by
  have hrice : containsSub (lowerStr q) "rice" = true :=
    containsSub_trans h (by decide)
  have hcrop : crop_names.find? (fun crop => containsSub (lowerStr q) crop) =
      some "rice" := by
    unfold crop_names
    exact List.find?_cons_of_pos _ hrice
  show (withLocation (entityScan (lowerStr q))).lookup "crop" = some (EVal.s "Rice")
  rw [withLocation_lookup_ne (entityScan (lowerStr q)) "crop" (by decide)]
  unfold entityScan
  rw [hcrop]
  have ht : titleStr "rice" = "Rice" := rfl
  simp [List.lookup_append, List.lookup_cons_self, ht]

/-- C9 (witness): "Show me wheat prices in 2024" yields crop "Rice",
not "Wheat". -/
theorem C9_price_yields_rice_witness :
    (processQuery "Show me wheat prices in 2024").entities.lookup "crop" =
      some (EVal.s "Rice") :=
  C9_price_yields_rice "Show me wheat prices in 2024" (by decide)

/-! Section: Claim C10 -/

/-- C10: a query whose lower-cased text contains "up" but none of the state
names scanned before it (punjab, haryana, uttar pradesh) gets state
"Uttar Pradesh", and hence location "Uttar Pradesh" as well. -/
theorem C10_up_substring_state (q : String)
    (h : containsSub (lowerStr q) "up" = true)
    (h1 : containsSub (lowerStr q) "punjab" = false)
    (h2 : containsSub (lowerStr q) "haryana" = false)
    (h3 : containsSub (lowerStr q) "uttar pradesh" = false) :
    (processQuery q).entities.lookup "state" = some (EVal.s "Uttar Pradesh") ∧
    (processQuery q).entities.lookup "location" = some (EVal.s "Uttar Pradesh") := by
  have hstate : state_names.find? (fun st => containsSub (lowerStr q) st) =
      some "up" := by
    simp [state_names, List.find?_cons, h, h1, h2, h3]
  have hsl : (entityScan (lowerStr q)).lookup "state" =
      some (EVal.s "Uttar Pradesh") := by
    cases hc : crop_names.find? (fun c => containsSub (lowerStr q) c) <;>
      simp [entityScan, hstate, hc, List.lookup_append, List.lookup_cons,
        normalizeState]
  have hln : (entityScan (lowerStr q)).lookup "location" = none := by
    cases hc : crop_names.find? (fun c => containsSub (lowerStr q) c) <;>
      cases hy : findYear (lowerStr q).data <;>
        cases hse : seasons.find? (fun se => containsSub (lowerStr q) se) <;>
          simp [entityScan, hstate, hc, hy, hse, List.lookup_append, List.lookup_cons]
  constructor
  · show (withLocation (entityScan (lowerStr q))).lookup "state" = _
    rw [withLocation_lookup_ne (entityScan (lowerStr q)) "state" (by decide)]
    exact hsl
  · show (withLocation (entityScan (lowerStr q))).lookup "location" = _
    simp [withLocation, hln, hsl, List.lookup_append]

/-! Section: Claim C3 -/

theorem lookup_map_pair {β : Type} (f : String → β) :
    ∀ (l : List String) (s : String) (ps : β),
      (l.map (fun x => (x, f x))).lookup s = some ps → ps = f s := by
  intro l
  induction l with
  | nil => intro s ps h; simp at h
  | cons x xs ih =>
    intro s ps h
    simp only [List.map_cons, List.lookup_cons] at h
    cases hx : s == x with
    | true =>
      rw [hx] at h
      have hsx : s = x := eq_of_beq hx
      injection h with h
      rw [← h, hsx]
    | false =>
      rw [hx] at h
      exact ih s ps h

theorem lookup_optEntry (k key : String) (o : Option EVal) (v : EVal)
    (h : (optEntry key o).lookup k = some v) : k = key ∧ o = some v := by
  cases o with
  | none => simp [optEntry] at h
  | some w =>
    simp only [optEntry, List.lookup_cons] at h
    cases hk : k == key with
    | true =>
      rw [hk] at h
      injection h with h
      exact ⟨eq_of_beq hk, by rw [h]⟩
    | false => rw [hk] at h; simp at h

theorem lookup_optEntry_append (k key : String) (o : Option EVal)
    (rest : List (String × EVal)) (v : EVal)
    (h : (optEntry key o ++ rest).lookup k = some v) :
    (k = key ∧ o = some v) ∨ rest.lookup k = some v := by
  cases o with
  | none => right; simpa [optEntry] using h
  | some w =>
    simp only [optEntry, List.singleton_append, List.lookup_cons] at h
    cases hk : k == key with
    | true =>
      rw [hk] at h
      injection h with h
      exact Or.inl ⟨eq_of_beq hk, by rw [h]⟩
    | false => rw [hk] at h; exact Or.inr h

/-- A `QueryIntent` whose entities hold a state but no location. -/
def stateOnlyIntent : QueryIntent :=
  { intent_type := "weather", entities := [("state", EVal.s "Punjab")],
    data_sources := ["weather"], confidence := 1/2 }

/-- C3 (counterexample): for an intent whose entities hold only a state,
the weather parameters carry the filter key "location" although no
"location" entity is present, so the parameter mappings do not use only
entity keys present in the entities mapping. -/
theorem C3_location_key_counterexample :
    (buildQueryParams stateOnlyIntent).lookup "weather" =
      some [("location", EVal.s "Punjab")] ∧
    stateOnlyIntent.entities.lookup "location" = none :=
  ⟨rfl, rfl⟩

/-- C3 (amended): every filter entry of every per-source parameter mapping
copies the value of an entity key present in the entities mapping under the
same key, except that the weather "location" filter may be introduced from
the present "state" entity when no "location" entity exists. -/
theorem C3_params_entities (qi : QueryIntent) (s : String)
    (ps : List (String × EVal)) (k : String) (v : EVal)
    (hs : (buildQueryParams qi).lookup s = some ps)
    (hk : ps.lookup k = some v) :
    qi.entities.lookup k = some v ∨
      (s = "weather" ∧ k = "location" ∧ qi.entities.lookup "location" = none ∧
        qi.entities.lookup "state" = some v) := by
  have hps : ps = sourceParams s qi.entities :=
    lookup_map_pair (fun source => sourceParams source qi.entities) _ _ _ hs
  subst hps
  unfold sourceParams at hk
  split_ifs at hk with ha hw
  · -- agriculture
    unfold agricultureParams at hk
    rw [List.append_assoc] at hk
    rcases lookup_optEntry_append _ _ _ _ _ hk with ⟨rfl, ho⟩ | hk2
    · exact Or.inl ho
    · rcases lookup_optEntry_append _ _ _ _ _ hk2 with ⟨rfl, ho⟩ | hk3
      · exact Or.inl ho
      · rcases lookup_optEntry _ _ _ _ hk3 with ⟨rfl, ho⟩
        exact Or.inl ho
  · -- weather
    have hsw : s = "weather" := eq_of_beq hw
    unfold weatherParams at hk
    cases hloc : qi.entities.lookup "location" with
    | some w =>
      rw [hloc] at hk
      simp only [List.singleton_append, List.lookup_cons] at hk
      cases hkl : k == "location" with
      | true =>
        rw [hkl] at hk
        injection hk with hk
        exact Or.inl (by rw [eq_of_beq hkl, hloc, hk])
      | false =>
        rw [hkl] at hk
        rcases lookup_optEntry _ _ _ _ hk with ⟨rfl, ho⟩
        exact Or.inl ho
    | none =>
      rw [hloc] at hk
      cases hst : qi.entities.lookup "state" with
      | some w =>
        rw [hst] at hk
        simp only [List.singleton_append, List.lookup_cons] at hk
        cases hkl : k == "location" with
        | true =>
          rw [hkl] at hk
          injection hk with hk
          exact Or.inr ⟨hsw, eq_of_beq hkl, rfl, by rw [hk]⟩
        | false =>
          rw [hkl] at hk
          rcases lookup_optEntry _ _ _ _ hk with ⟨rfl, ho⟩
          exact Or.inl ho
      | none =>
        rw [hst] at hk
        simp only [List.nil_append] at hk
        rcases lookup_optEntry _ _ _ _ hk with ⟨rfl, ho⟩
        exact Or.inl ho
  · simp at hk

/-- A `QueryIntent` whose entities hold only a crop. -/
def cropOnlyIntent : QueryIntent :=
  { intent_type := "crop_production", entities := [("crop", EVal.s "Rice")],
    data_sources := ["agriculture"], confidence := 1 }

/-- C3 (witness): the amended provenance statement at a concrete intent. -/
theorem C3_params_entities_witness :
    cropOnlyIntent.entities.lookup "crop" = some (EVal.s "Rice") ∨
      ("agriculture" = "weather" ∧ "crop" = "location" ∧
        cropOnlyIntent.entities.lookup "location" = none ∧
        cropOnlyIntent.entities.lookup "state" = some (EVal.s "Rice")) :=
  C3_params_entities cropOnlyIntent "agriculture" [("crop", EVal.s "Rice")] "crop"
    (EVal.s "Rice") rfl rfl

/-! Section: Claim C4 -/

theorem maxFirst_decomp :
    ∀ (xs : List (String × Nat)) (x : String × Nat),
      ∃ l₁ l₂, x :: xs = l₁ ++ maxFirst x xs :: l₂ ∧
        (∀ y ∈ l₁, y.2 < (maxFirst x xs).2) ∧
        (∀ y ∈ l₂, y.2 ≤ (maxFirst x xs).2) := by
  intro xs
  induction xs with
  | nil => intro x; exact ⟨[], [], rfl, by simp, by simp⟩
  | cons y ys ih =>
    intro x
    have hdef : maxFirst x (y :: ys) = maxFirst (if x.2 < y.2 then y else x) ys := rfl
    by_cases hxy : x.2 < y.2
    · rw [hdef, if_pos hxy]
      obtain ⟨l₁, l₂, heq, hl₁, hl₂⟩ := ih y
      have hyb : y.2 ≤ (maxFirst y ys).2 := by
        cases l₁ with
        | nil =>
          rw [List.nil_append] at heq
          obtain ⟨hy, -⟩ := List.cons_eq_cons.mp heq
          conv_lhs => rw [hy]
        | cons a t =>
          rw [List.cons_append] at heq
          obtain ⟨hy, -⟩ := List.cons_eq_cons.mp heq
          have ha := hl₁ a (List.mem_cons_self a t)
          have h2 : y.2 = a.2 := by rw [hy]
          omega
      refine ⟨x :: l₁, l₂, ?_, ?_, hl₂⟩
      · rw [List.cons_append, ← heq]
      · intro z hz
        rcases List.mem_cons.mp hz with rfl | hz'
        · omega
        · exact hl₁ z hz'
    · rw [hdef, if_neg hxy]
      obtain ⟨l₁, l₂, heq, hl₁, hl₂⟩ := ih x
      cases l₁ with
      | nil =>
        rw [List.nil_append] at heq
        obtain ⟨hx, hys⟩ := List.cons_eq_cons.mp heq
        refine ⟨[], y :: ys, by rw [List.nil_append, ← hx], by simp, ?_⟩
        intro z hz
        rcases List.mem_cons.mp hz with rfl | hz'
        · rw [← hx]; omega
        · exact hl₂ z (hys ▸ hz')
      | cons a t =>
        rw [List.cons_append] at heq
        obtain ⟨hxa, hys⟩ := List.cons_eq_cons.mp heq
        refine ⟨x :: y :: t, l₂, ?_, ?_, hl₂⟩
        · rw [List.cons_append, List.cons_append, ← hys]
        · intro z hz
          have ha := hl₁ a (List.mem_cons_self a t)
          have h2 : x.2 = a.2 := by rw [hxa]
          rcases List.mem_cons.mp hz with rfl | hz'
          · omega
          · rcases List.mem_cons.mp hz' with rfl | hz''
            · omega
            · exact hl₁ z (List.mem_cons_of_mem a hz'')

theorem intentScoresAux_nil_of_zero :
    ∀ (table : List (String × List String)) (q : String),
      (∀ p ∈ table, intentScore q p.2 = 0) → intentScoresAux table q = [] := by
  intro table q
  induction table with
  | nil => intro _; rfl
  | cons p rest ih =>
    intro h
    have hp : intentScore q p.2 = 0 := h p (List.mem_cons_self p rest)
    simp only [intentScoresAux, hp]
    exact ih (fun p' hp' => h p' (List.mem_cons_of_mem p hp'))

theorem intentScoresAux_singleton_of_sum_one :
    ∀ (table : List (String × List String)) (q : String),
      (table.map (fun p => intentScore q p.2)).sum = 1 →
      ∃ n, intentScoresAux table q = [(n, 1)] := by
  intro table q
  induction table with
  | nil => intro h; simp at h
  | cons p rest ih =>
    intro h
    simp only [List.map_cons, List.sum_cons] at h
    cases hp : intentScore q p.2 with
    | zero =>
      rw [hp, Nat.zero_add] at h
      obtain ⟨n, hn⟩ := ih h
      exact ⟨n, by simp [intentScoresAux, hp, hn]⟩
    | succ m =>
      rw [hp] at h
      have hm : m = 0 := by omega
      have hsum : (rest.map (fun p => intentScore q p.2)).sum = 0 := by omega
      subst hm
      have hall : ∀ p' ∈ rest, intentScore q p'.2 = 0 := by
        intro p' hp'
        by_contra hne
        have hmem : intentScore q p'.2 ∈ rest.map (fun p => intentScore q p.2) :=
          List.mem_map.mpr ⟨p', hp', rfl⟩
        have := List.single_le_sum (l := rest.map (fun p => intentScore q p.2))
          (fun x _ => Nat.zero_le x) _ hmem
        omega
      have hrest : intentScoresAux rest q = [] := intentScoresAux_nil_of_zero rest q hall
      exact ⟨p.1, by simp [intentScoresAux, hp, hrest]⟩

/-- C4: if no category has a keyword occurring in the lower-cased text the
intent is "general" with confidence 1/2; otherwise the classifier returns
the category with the highest keyword count — ties broken in favor of the
first-declared category — with confidence min(score/3, 1); and a text with
exactly one keyword hit overall has confidence 1/3. -/
theorem C4_classification (q : String) :
    ((∀ p ∈ intent_keywords, intentScore (lowerStr q) p.2 = 0) →
      classifyIntent (lowerStr q) = ("general", 1/2)) ∧
    (∀ x xs, intentScores (lowerStr q) = x :: xs →
      ∃ l₁ best l₂, x :: xs = l₁ ++ best :: l₂ ∧
        (∀ y ∈ l₁, y.2 < best.2) ∧ (∀ y ∈ l₂, y.2 ≤ best.2) ∧
        classifyIntent (lowerStr q) = (best.1, min ((best.2 : ℚ) / 3) 1)) ∧
    ((intent_keywords.map (fun p => intentScore (lowerStr q) p.2)).sum = 1 →
      (classifyIntent (lowerStr q)).2 = 1/3) := by
  refine ⟨?_, ?_, ?_⟩
  · intro h
    have hnil : intentScores (lowerStr q) = [] :=
      intentScoresAux_nil_of_zero intent_keywords (lowerStr q) h
    simp [classifyIntent, hnil]
  · intro x xs h
    obtain ⟨l₁, l₂, heq, h1, h2⟩ := maxFirst_decomp xs x
    exact ⟨l₁, maxFirst x xs, l₂, heq, h1, h2, by simp [classifyIntent, h]⟩
  · intro h
    obtain ⟨n, hn⟩ := intentScoresAux_singleton_of_sum_one intent_keywords (lowerStr q) h
    have hs : intentScores (lowerStr q) = [(n, 1)] := hn
    simp [classifyIntent, hs, maxFirst]
    norm_num

/-- C4 (witness): a keyword-free text is classified ("general", 1/2), and a
text with exactly one keyword hit has confidence 1/3. -/
theorem C4_classification_witness :
    classifyIntent (lowerStr "hello there") = ("general", 1/2) ∧
    (classifyIntent (lowerStr "rice production in punjab")).2 = 1/3 :=
  ⟨(C4_classification "hello there").1 (by decide),
   (C4_classification "rice production in punjab").2.2 (by decide)⟩

/-! Section: Claim C7 -/

/-- Claim-worded year matcher: `(19|20)\d\d` at position `i` with no word
boundary requirement (the claim's pattern omits the `\b` anchors that the
source's `year_pattern` carries). -/
def yearAtNB (l : List Char) (i : Nat) : Option Nat :=
  match l.get? i, l.get? (i+1), l.get? (i+2), l.get? (i+3) with
  | some c0, some c1, some c2, some c3 =>
    if ((c0 == '1' && c1 == '9') || (c0 == '2' && c1 == '0'))
        && c2.isDigit && c3.isDigit
    then some (1000 * digitVal c0 + 100 * digitVal c1 + 10 * digitVal c2 + digitVal c3)
    else none
  | _, _, _, _ => none

/-- Claim-worded year search: the first 4-digit run matching `(19|20)\d\d`
anywhere in the text. -/
def findYearNB (l : List Char) : Option Nat :=
  ((List.range l.length).filterMap (yearAtNB l)).head?

/-- C7 (counterexample): in "year2024" the 4-digit run "2024" matches
`(19|20)\d\d`, so the claim demands year 2024; the pipeline records no
year, because the source pattern requires word boundaries and the '2' is
immediately preceded by the word character 'r'. -/
theorem C7_year_counterexample :
    findYearNB (lowerStr "year2024").data = some 2024 ∧
    (processQuery "year2024").entities.lookup "year" = none :=
  ⟨by decide, by decide⟩

theorem head?_filterMap_range {β : Type} (f : Nat → Option β) :
    ∀ (n : Nat) (b : β),
      ((List.range n).filterMap f).head? = some b ↔
        ∃ i, i < n ∧ f i = some b ∧ ∀ j, j < i → f j = none := by
  intro n
  induction n with
  | zero => intro b; simp
  | succ n ih =>
    intro b
    rw [List.range_succ, List.filterMap_append]
    cases hA : (List.range n).filterMap f with
    | cons c cs =>
      simp only [List.cons_append, List.head?_cons]
      have hex : ∃ i, i < n ∧ f i = some c ∧ ∀ j, j < i → f j = none :=
        (ih c).mp (by rw [hA]; rfl)
      obtain ⟨i, hi, hfi, hmin⟩ := hex
      constructor
      · intro h
        have hcb : c = b := Option.some_inj.mp h
        exact ⟨i, Nat.lt_succ_of_lt hi, hcb ▸ hfi, hmin⟩
      · rintro ⟨i', hi', hfi', hmin'⟩
        rcases Nat.lt_trichotomy i i' with h | h | h
        · rw [hmin' i h] at hfi; simp at hfi
        · rw [← hfi, h]; exact hfi'
        · rw [hmin i' h] at hfi'; simp at hfi'
    | nil =>
      simp only [List.nil_append]
      have hallnone : ∀ j, j < n → f j = none := by
        intro j hj
        exact List.filterMap_eq_nil_iff.mp hA j (List.mem_range.mpr hj)
      cases hfn : f n with
      | some c =>
        simp only [List.filterMap_cons, hfn, List.filterMap_nil, List.head?_cons]
        constructor
        · intro h
          have hcb : c = b := Option.some_inj.mp h
          exact ⟨n, Nat.lt_succ_self n, hcb ▸ hfn, hallnone⟩
        · rintro ⟨i', hi', hfi', hmin'⟩
          have hin : i' = n := by
            rcases Nat.lt_trichotomy i' n with h | h | h
            · rw [hallnone i' h] at hfi'; simp at hfi'
            · exact h
            · omega
          rw [hin, hfn] at hfi'
          exact hfi'
      | none =>
        simp only [List.filterMap_cons, hfn, List.filterMap_nil, List.head?_nil]
        constructor
        · intro h; simp at h
        · rintro ⟨i', hi', hfi', hmin'⟩
          have : i' = n ∨ i' < n := by omega
          rcases this with rfl | h
          · rw [hfn] at hfi'; simp at hfi'
          · rw [hallnone i' h] at hfi'; simp at hfi'

theorem yearAt_none_of_ge (l : List Char) (i : Nat) (h : l.length ≤ i) :
    yearAt l i = none := by
  have h0 : l.get? i = none := List.get?_eq_none.mpr h
  unfold yearAt
  rw [h0]

/-- C7 (amended): the recorded year entity mirrors the regex search with
word boundaries: it is `some y` exactly when `y` is the match at the
leftmost position where `\b(19|20)\d\d\b` matches, and absent exactly when
no position matches. -/
theorem C7_year_leftmost_boundary (q : String) :
    (processQuery q).entities.lookup "year" =
      Option.map (fun y => EVal.n (y : Int)) (findYear (lowerStr q).data) ∧
    (∀ y : Nat, findYear (lowerStr q).data = some y ↔
      ∃ i, yearAt (lowerStr q).data i = some y ∧
        ∀ j, j < i → yearAt (lowerStr q).data j = none) ∧
    (findYear (lowerStr q).data = none ↔
      ∀ i, yearAt (lowerStr q).data i = none) := by
  refine ⟨?_, ?_, ?_⟩
  · show (withLocation (entityScan (lowerStr q))).lookup "year" = _
    rw [withLocation_lookup_ne (entityScan (lowerStr q)) "year" (by decide)]
    cases hc : crop_names.find? (fun c => containsSub (lowerStr q) c) <;>
      cases hst : state_names.find? (fun st => containsSub (lowerStr q) st) <;>
        cases hy : findYear (lowerStr q).data <;>
          cases hse : seasons.find? (fun se => containsSub (lowerStr q) se) <;>
            simp [entityScan, hc, hst, hy, hse, List.lookup_append, List.lookup_cons,
              normalizeState]
  · intro y
    constructor
    · intro h
      obtain ⟨i, _, hfi, hmin⟩ := (head?_filterMap_range _ _ _).mp h
      exact ⟨i, hfi, hmin⟩
    · rintro ⟨i, hfi, hmin⟩
      refine (head?_filterMap_range _ _ _).mpr ⟨i, ?_, hfi, hmin⟩
      by_contra hge
      rw [yearAt_none_of_ge _ _ (le_of_not_lt hge)] at hfi
      simp at hfi
  · constructor
    · intro h i
      rcases lt_or_ge i (lowerStr q).data.length with hi | hi
      · have hnil := List.head?_eq_none_iff.mp h
        exact List.filterMap_eq_nil_iff.mp hnil i (List.mem_range.mpr hi)
      · exact yearAt_none_of_ge _ _ hi
    · intro h
      show ((List.range (lowerStr q).data.length).filterMap
        (yearAt (lowerStr q).data)).head? = none
      rw [List.head?_eq_none_iff]
      exact List.filterMap_eq_nil_iff.mpr (fun a _ => h a)

/-- C7 (witness): the year entry mirrors the boundary-aware search at a
concrete query. -/
theorem C7_year_leftmost_boundary_witness :
    (processQuery "rainfall in 1999").entities.lookup "year" =
      Option.map (fun y => EVal.n (y : Int))
        (findYear (lowerStr "rainfall in 1999").data) :=
  (C7_year_leftmost_boundary "rainfall in 1999").1

/-- C10 (witness): "supply" contains "up" and none of the earlier state
names, so its state and location are "Uttar Pradesh". -/
theorem C10_up_substring_state_witness :
    (processQuery "supply").entities.lookup "state" = some (EVal.s "Uttar Pradesh") ∧
    (processQuery "supply").entities.lookup "location" =
      some (EVal.s "Uttar Pradesh") :=
  C10_up_substring_state "supply" (by decide) (by decide) (by decide) (by decide)
